import Mathlib

/-!
Verification of the eFootball tournament server (`src/server.js`).

The SQLite-backed Express application is shallowly embedded: each table of
the schema (lines 21-65 of `server.js`) becomes a list of rows kept in
insertion (rowid) order, and each route handler that the claims touch
becomes a pure state-transformer on a `DB` value.  SQL `UPDATE ... WHERE`
statements become `List.map` over the table with the `WHERE` clause as the
guard, `db.get` becomes `List.find?`, autoincrement primary keys become an
explicit counter in the state, and an uncaught JavaScript exception inside
a route (`undefined` dereference) becomes an explicit `crash` outcome that
carries the store state at the moment of the throw.
-/

namespace EFootball

/-- Row of the `users` table (`server.js` lines 22-27): autoincrement id,
UNIQUE username, email, bcrypt password hash. -/
structure UserRow where
  id : Nat
  username : String
  email : String
  password : String
deriving DecidableEq, Repr

/-- Row of the `tournaments` table (`server.js` lines 29-34); `createdAt` is
omitted, no claim mentions it. -/
structure TournamentRow where
  id : Nat
  name : String
  createdBy : String
deriving DecidableEq, Repr

/-- Row of the `tournament_players` table (`server.js` lines 36-41).  The
table has two FOREIGN KEY clauses but no PRIMARY KEY and no UNIQUE
constraint, so nothing prevents duplicate (tournament_id, user_id) rows. -/
structure MembershipRow where
  tournament_id : Nat
  user_id : Nat
deriving DecidableEq, Repr

/-- Row of the `fixtures` table (`server.js` lines 43-51).  `played` is the
INTEGER flag of the schema (0 initially, set to 1 by the score route). -/
structure FixtureRow where
  id : Nat
  tournament_id : Nat
  home : String
  away : String
  homeScore : Int
  awayScore : Int
  played : Int
deriving DecidableEq, Repr

/-- Row of the `standings` table (`server.js` lines 53-64); every counter
defaults to 0. -/
structure StandingRow where
  tournament_id : Nat
  player : String
  played : Int
  won : Int
  drawn : Int
  lost : Int
  gf : Int
  ga : Int
  gd : Int
  points : Int
deriving DecidableEq, Repr

/-- The persistent store: one list per table, in rowid (insertion) order,
plus the AUTOINCREMENT counters for the two tables whose generated ids the
code reads back. -/
structure DB where
  users : List UserRow
  tournaments : List TournamentRow
  tournament_players : List MembershipRow
  fixtures : List FixtureRow
  standings : List StandingRow
  nextUserId : Nat
  nextFixtureId : Nat
deriving DecidableEq, Repr

/-- Result of the membership query of the generate route (`server.js` line
154): `SELECT u.username FROM users u JOIN tournament_players tp ON u.id =
tp.user_id WHERE tp.tournament_id = ?`, one username per membership row of
the tournament, in membership insertion order. -/
def playersOf (db : DB) (tid : Nat) : List String :=
  (db.tournament_players.filter (fun m => m.tournament_id == tid)).filterMap
    (fun m => (db.users.find? (fun u => u.id == m.user_id)).map (fun u => u.username))

/-- Result of `SELECT * FROM fixtures WHERE tournament_id = ?` (`server.js`
lines 97 and 182): the tournament's fixtures in rowid order. -/
def fixturesOf (db : DB) (tid : Nat) : List FixtureRow :=
  db.fixtures.filter (fun f => f.tournament_id == tid)

/-- Result of `SELECT * FROM standings WHERE tournament_id = ?` without the
ORDER BY clause: the tournament's standing rows in rowid order. -/
def standingsOf (db : DB) (tid : Nat) : List StandingRow :=
  db.standings.filter (fun r => r.tournament_id == tid)

/-- POST /tournament/join/:id (`server.js` lines 145-149): `INSERT OR
IGNORE INTO tournament_players (tournament_id, user_id) VALUES (?, ?)`.
Because `tournament_players` is declared with no PRIMARY KEY and no UNIQUE
constraint, the `OR IGNORE` clause never has a uniqueness conflict to act
on, so the statement appends a new row on every call. -/
def joinTournament (db : DB) (tid uid : Nat) : DB :=
  { db with tournament_players := db.tournament_players ++ [⟨tid, uid⟩] }

/-- Number of membership rows a given user has in a given tournament. -/
def membershipCount (db : DB) (tid uid : Nat) : Nat :=
  (db.tournament_players.filter
    (fun m => m.tournament_id == tid && m.user_id == uid)).length

/-- Outcome of POST /register: either the INSERT hit the UNIQUE(username)
constraint and the route redirected to `/register?error=Username taken`,
or a fresh row was inserted and the new session user id returned. -/
inductive RegisterOutcome where
  | conflict (db : DB)
  | ok (db : DB) (uid : Nat)
deriving DecidableEq, Repr

/-- POST /register (`server.js` lines 107-116): `INSERT INTO users
(username, email, password) VALUES (?, ?, ?)`.  The insert fails exactly
when the UNIQUE constraint on `username` is violated, i.e. when some
existing row already carries the username; on failure the route redirects
with the error and the table is untouched.  The stored password is the
bcrypt hash produced by the route, taken here as an input. -/
def register (db : DB) (username email hash : String) : RegisterOutcome :=
  if db.users.any (fun u => u.username == username) then
    .conflict db
  else
    .ok { db with
          users := db.users ++ [⟨db.nextUserId, username, email, hash⟩],
          nextUserId := db.nextUserId + 1 }
      db.nextUserId

/-- The double loop of the generate route (`server.js` lines 164-170): for
each position i and each position j after i, emit (players[i], players[j])
then (players[j], players[i]), as (home, away) pairs. -/
def genPairs : List String → List (String × String)
  | [] => []
  | p :: rest => (rest.flatMap (fun q => [(p, q), (q, p)])) ++ genPairs rest

/-- Fresh standing row inserted by `INSERT INTO standings (tournament_id,
player) VALUES (?, ?)` (`server.js` line 162): every counter takes its
schema default 0. -/
def zeroStanding (tid : Nat) (p : String) : StandingRow :=
  ⟨tid, p, 0, 0, 0, 0, 0, 0, 0, 0⟩

/-- Rows created by the prepared fixture INSERT (`server.js` line 161), one
per generated (home, away) pair in emission order, ids assigned by the
AUTOINCREMENT counter; scores and the played flag take their defaults. -/
def mkFixtures (tid : Nat) : Nat → List (String × String) → List FixtureRow
  | _, [] => []
  | nid, (h, a) :: rest => ⟨nid, tid, h, a, 0, 0, 0⟩ :: mkFixtures tid (nid + 1) rest

/-- POST /tournament/generate/:id (`server.js` lines 152-175): read the
member usernames; if fewer than 2, redirect without touching the store;
otherwise DELETE the tournament's fixtures and standings and insert the
double-round-robin fixtures and one fresh standing row per player. -/
def generateFixtures (db : DB) (tid : Nat) : DB :=
  let players := playersOf db tid
  if players.length < 2 then db
  else
    let prs := genPairs players
    { db with
      fixtures := db.fixtures.filter (fun f => !(f.tournament_id == tid))
        ++ mkFixtures tid db.nextFixtureId prs,
      standings := db.standings.filter (fun r => !(r.tournament_id == tid))
        ++ players.map (zeroStanding tid),
      nextFixtureId := db.nextFixtureId + prs.length }

/-- Body of the `updateStanding` helper (`server.js` lines 196-208) as it
acts on one matched row `r` of the UPDATE statement.  The absolute columns
(played, won, drawn, lost, gd, points) are computed in JavaScript from the
previously SELECTed snapshot `snap`, while `gf = gf + ?` and `ga = ga + ?`
increment each matched row's own stored value inside SQL. -/
def applyResult (snap r : StandingRow) (gf ga : Int) : StandingRow :=
  let won := snap.won + (if gf > ga then 1 else 0)
  let drawn := snap.drawn + (if gf == ga then 1 else 0)
  let lost := snap.lost + (if gf < ga then 1 else 0)
  { r with
    played := snap.played + 1,
    won := won, drawn := drawn, lost := lost,
    gf := r.gf + gf, ga := r.ga + ga,
    gd := (snap.gf + gf) - (snap.ga + ga),
    points := won * 3 + drawn }

/-- One matched row updated with itself as the snapshot: the per-side
update rule of the spec. -/
def rowUpdate (r : StandingRow) (gf ga : Int) : StandingRow :=
  applyResult r r gf ga

/-- The `UPDATE standings SET ... WHERE tournament_id = ? AND player = ?`
statement issued by `updateStanding` (`server.js` lines 204-207): every row
matching the WHERE clause is rewritten via `applyResult`. -/
def updateStanding (db : DB) (tid : Nat) (snap : StandingRow) (gf ga : Int) : DB :=
  { db with standings := db.standings.map (fun r =>
      if r.tournament_id == tid && r.player == snap.player then
        applyResult snap r gf ga
      else r) }

/-- The `db.get SELECT * FROM standings WHERE tournament_id = ? AND player
= ?` of the score route (`server.js` lines 186-187): first matching row. -/
def findStanding (db : DB) (tid : Nat) (p : String) : Option StandingRow :=
  db.standings.find? (fun r => r.tournament_id == tid && r.player == p)

/-- The `UPDATE fixtures SET homeScore = ?, awayScore = ?, played = 1 WHERE
id = ?` of the score route (`server.js` line 184). -/
def setFixtureScore (db : DB) (fid : Nat) (hs aw : Int) : DB :=
  { db with fixtures := db.fixtures.map (fun f =>
      if f.id == fid then { f with homeScore := hs, awayScore := aw, played := 1 }
      else f) }

/-- Observable outcome of the score route: either the final redirect to the
tournament page, or an uncaught JavaScript exception (dereference of
`undefined`), carrying the store state reached before the throw. -/
inductive ScoreOutcome where
  | redirect (db : DB)
  | crash (db : DB)
deriving DecidableEq, Repr

/-- POST /tournament/score/:id (`server.js` lines 178-209).  The route
loads the tournament's fixtures and takes `fixtures[fixtureIndex]` with no
bounds check: when the index is out of range the subsequent `f.id` access
throws a TypeError before any write, so the store is unchanged.  Otherwise
the fixture row is updated, both standing snapshots are SELECTed, and
`updateStanding` runs for the home side with (homeScore, awayScore) and
then for the away side with (awayScore, homeScore).  A missing home
snapshot throws inside the first `updateStanding` before its UPDATE; a
missing away snapshot throws after the home UPDATE has been issued. -/
def recordResult (db : DB) (tid fixtureIndex : Nat) (hs aw : Int) : ScoreOutcome :=
  match (fixturesOf db tid)[fixtureIndex]? with
  | none => .crash db
  | some f =>
    let db1 := setFixtureScore db f.id hs aw
    match findStanding db1 tid f.home, findStanding db1 tid f.away with
    | some home, some away =>
        .redirect (updateStanding (updateStanding db1 tid home hs aw) tid away aw hs)
    | some home, none => .crash (updateStanding db1 tid home hs aw)
    | none, _ => .crash db1

/-- Store state left behind by a score request, whether it redirected or
crashed (an uncaught exception does not roll SQLite writes back). -/
def outcomeDB : ScoreOutcome → DB
  | .redirect db => db
  | .crash db => db

/-- One score-update request: target tournament, fixture index, home and
away scores. -/
structure ScoreOp where
  tid : Nat
  idx : Nat
  hs : Int
  aw : Int
deriving DecidableEq, Repr

/-- Replay of a sequence of score-update requests against the store. -/
def applyOps (db : DB) : List ScoreOp → DB
  | [] => db
  | op :: rest => applyOps (outcomeDB (recordResult db op.tid op.idx op.hs op.aw)) rest

/-- Comparator of the standings query `ORDER BY points DESC, gd DESC`
(`server.js` line 98): a row sorts before another when it has strictly more
points, or equal points and at least as large a goal difference. -/
def standingsLe (a b : StandingRow) : Bool :=
  decide (b.points < a.points) || (a.points == b.points && decide (b.gd ≤ a.gd))

/-- Standings listing of GET /tournament/:id (`server.js` line 98):
`SELECT * FROM standings WHERE tournament_id = ? ORDER BY points DESC, gd
DESC`. -/
def getStandings (db : DB) (tid : Nat) : List StandingRow :=
  (standingsOf db tid).mergeSort standingsLe

/-- Per-row bookkeeping invariant of the spec: games decompose into
results, goal difference matches the goal totals, points follow the 3-1-0
rule. -/
def RowInv (r : StandingRow) : Prop :=
  r.played = r.won + r.drawn + r.lost ∧ r.gd = r.gf - r.ga ∧
    r.points = r.won * 3 + r.drawn

/-- Emission order exactly as the claim words it: for each position i in
input order and each position j after i, first (home = entry i, away =
entry j), then (home = entry j, away = entry i).  This definition follows
the specification's positional description; the theorems compare it with
the code-derived `genPairs`. -/
def specPairsByIndex (l : List String) : List (String × String) :=
  (List.range l.length).flatMap (fun i =>
    ((List.range l.length).filter (fun j => decide (i < j))).flatMap (fun j =>
      [(l.getD i "", l.getD j ""), (l.getD j "", l.getD i "")]))

/-- Inductive state invariant for one tournament: every standing row of the
tournament satisfies the bookkeeping equations, standing rows of the
tournament are determined by their player name, and no fixture of the
tournament pairs a player with itself. -/
def Good (db : DB) (tid : Nat) : Prop :=
  (∀ r ∈ db.standings, r.tournament_id = tid → RowInv r) ∧
  (∀ r ∈ db.standings, ∀ s ∈ db.standings,
    r.tournament_id = tid → s.tournament_id = tid → r.player = s.player → r = s) ∧
  (∀ f ∈ db.fixtures, f.tournament_id = tid → f.home ≠ f.away)

/-- Three-participant store: users A, B, C all members of tournament 1,
no fixtures or standings yet. -/
def dbABC : DB :=
  ⟨[⟨1, "A", "a", "h"⟩, ⟨2, "B", "b", "h"⟩, ⟨3, "C", "c", "h"⟩],
   [⟨1, "Cup", "A"⟩],
   [⟨1, 1⟩, ⟨1, 2⟩, ⟨1, 3⟩],
   [], [], 4, 0⟩

/-- Store in which user 1 carries two membership rows for tournament 1,
the state the join route produces when the same user joins twice. -/
def dbDup : DB :=
  ⟨[⟨1, "A", "a", "h"⟩], [⟨1, "Cup", "A"⟩], [⟨1, 1⟩, ⟨1, 1⟩], [], [], 2, 0⟩

/-- Store with a single member in tournament 1. -/
def dbSolo : DB :=
  ⟨[⟨1, "A", "a", "h"⟩], [⟨1, "Cup", "A"⟩], [⟨1, 1⟩], [], [], 2, 0⟩

lemma flatMap_congr {α β : Type} {l : List α} {f g : α → List β}
    (h : ∀ a ∈ l, f a = g a) : l.flatMap f = l.flatMap g := by
  induction l with
  | nil => rfl
  | cons a t ih =>
      simp only [List.flatMap_cons, h a (by simp)]
      rw [ih (fun x hx => h x (by simp [hx]))]

lemma length_pairFlat (p : String) (rest : List String) :
    (rest.flatMap (fun q => [(p, q), (q, p)])).length = 2 * rest.length := by
  induction rest with
  | nil => rfl
  | cons q t ih =>
      simp only [List.flatMap_cons, List.length_append, ih, List.length_cons,
        List.length_nil]
      omega

lemma genPairs_length (l : List String) :
    (genPairs l).length = l.length * (l.length - 1) := by
  induction l with
  | nil => rfl
  | cons p t ih =>
      have key : ∀ n : Nat, (n + 1) * (n + 1 - 1) = 2 * n + n * (n - 1) := by
        intro n
        cases n with
        | zero => rfl
        | succ m => simp [Nat.succ_sub_one]; ring
      simp only [genPairs, List.length_append, length_pairFlat, ih,
        List.length_cons, key]

lemma genPairs_mem {x y : String} :
    ∀ {l : List String}, (x, y) ∈ genPairs l → x ∈ l ∧ y ∈ l := by
  intro l
  induction l with
  | nil => simp [genPairs]
  | cons p t ih =>
      intro h
      rcases List.mem_append.1 h with h1 | h2
      · rcases List.mem_flatMap.1 h1 with ⟨q, hq, hmem⟩
        simp only [List.mem_cons, List.mem_singleton, Prod.mk.injEq,
          List.not_mem_nil, or_false] at hmem
        rcases hmem with ⟨hx, hy⟩ | ⟨hx, hy⟩
        · exact ⟨by simp [hx], by simp [hy ▸ hq]⟩
        · exact ⟨by simp [hx ▸ hq], by simp [hy]⟩
      · rcases ih h2 with ⟨hx, hy⟩
        exact ⟨List.mem_cons_of_mem _ hx, List.mem_cons_of_mem _ hy⟩

lemma genPairs_ne {l : List String} (hd : l.Nodup) :
    ∀ x y, (x, y) ∈ genPairs l → x ≠ y := by
  induction l with
  | nil => simp [genPairs]
  | cons p t ih =>
      intro x y h
      rcases List.nodup_cons.1 hd with ⟨hp, ht⟩
      rcases List.mem_append.1 h with h1 | h2
      · rcases List.mem_flatMap.1 h1 with ⟨q, hq, hmem⟩
        simp only [List.mem_cons, List.mem_singleton, Prod.mk.injEq,
          List.not_mem_nil, or_false] at hmem
        rcases hmem with ⟨hx, hy⟩ | ⟨hx, hy⟩
        · subst hx; subst hy
          exact fun hpq => hp (hpq ▸ hq)
        · subst hx; subst hy
          exact fun hqp => hp (hqp ▸ hq)
      · exact ih ht x y h2

lemma count_pairFlat (a b p : String) (hab : a ≠ b) (rest : List String) :
    (rest.flatMap (fun q => [(p, q), (q, p)])).count (a, b) =
      (if p = a then rest.count b else 0) + (if p = b then rest.count a else 0) := by
  induction rest with
  | nil => simp
  | cons q t ih =>
      simp only [List.flatMap_cons, List.count_append, ih, List.count_cons,
        List.count_nil, beq_iff_eq, Prod.mk.injEq]
      by_cases hpa : p = a <;> by_cases hpb : p = b <;>
        by_cases hqa : q = a <;> by_cases hqb : q = b <;>
        simp_all <;> omega

lemma count_one {α : Type} [BEq α] [LawfulBEq α] :
    ∀ {l : List α} {a : α}, l.Nodup → a ∈ l → l.count a = 1 := by
  intro l
  induction l with
  | nil => intro a _ h; simp at h
  | cons b t ih =>
      intro a hd ha
      rcases List.nodup_cons.1 hd with ⟨hb, ht⟩
      rcases List.mem_cons.1 ha with h | h
      · subst h
        rw [List.count_cons_self, List.count_eq_zero.2 hb]
      · rw [List.count_cons_of_ne, ih ht h]
        intro he
        exact hb (he ▸ h)

lemma genPairs_count : ∀ {l : List String}, l.Nodup → ∀ {a b : String},
    a ∈ l → b ∈ l → a ≠ b → (genPairs l).count (a, b) = 1 := by
  intro l
  induction l with
  | nil => intro _ a b ha _ _; simp at ha
  | cons p t ih =>
      intro hd a b ha hb hab
      rcases List.nodup_cons.1 hd with ⟨hp, ht⟩
      rw [genPairs, List.count_append, count_pairFlat a b p hab t]
      by_cases hpa : p = a
      · have hanott : a ∉ t := hpa ▸ hp
        have hbt : b ∈ t := by
          rcases List.mem_cons.1 hb with h | h
          · exact absurd (h.trans hpa).symm hab
          · exact h
        have hzero : (genPairs t).count (a, b) = 0 := by
          rw [List.count_eq_zero]
          intro hmem
          exact hanott (genPairs_mem hmem).1
        rw [hzero, if_pos hpa, if_neg (fun h => hab ((hpa.symm.trans h).symm).symm),
          count_one ht hbt]
      · by_cases hpb : p = b
        · have hbnott : b ∉ t := hpb ▸ hp
          have hat : a ∈ t := by
            rcases List.mem_cons.1 ha with h | h
            · exact absurd (h.trans hpb) hab
            · exact h
          have hzero : (genPairs t).count (a, b) = 0 := by
            rw [List.count_eq_zero]
            intro hmem
            exact hbnott (genPairs_mem hmem).2
          rw [hzero, if_neg hpa, if_pos hpb, count_one ht hat]
        · have hat : a ∈ t := by
            rcases List.mem_cons.1 ha with h | h
            · exact absurd h.symm hpa
            · exact h
          have hbt : b ∈ t := by
            rcases List.mem_cons.1 hb with h | h
            · exact absurd h.symm hpb
            · exact h
          rw [if_neg hpa, if_neg hpb, ih ht hat hbt hab]

lemma flatMap_range_getD {β : Type} (g : String → List β) :
    ∀ l : List String,
      (List.range l.length).flatMap (fun i => g (l.getD i "")) = l.flatMap g := by
  intro l
  induction l with
  | nil => simp
  | cons q t ih =>
      rw [List.length_cons, List.range_succ_eq_map, List.flatMap_cons,
        List.flatMap_map]
      simp only [List.getD_cons_zero, Nat.succ_eq_add_one, List.getD_cons_succ]
      rw [ih, List.flatMap_cons]

lemma filter_pos_cons_map (n : Nat) :
    (0 :: (List.range n).map Nat.succ).filter (fun j => decide (0 < j))
      = (List.range n).map Nat.succ := by
  rw [List.filter_cons_of_neg (by simp)]
  apply List.filter_eq_self.2
  intro a ha
  rcases List.mem_map.1 ha with ⟨b, _, rfl⟩
  simp

lemma filter_succ_lt_cons_map (n i : Nat) :
    (0 :: (List.range n).map Nat.succ).filter (fun j => decide (i + 1 < j))
      = ((List.range n).filter (fun j => decide (i < j))).map Nat.succ := by
  rw [List.filter_cons_of_neg (by simp), List.filter_map]
  congr 1
  apply List.filter_congr
  intro a _
  simp only [Function.comp_apply]
  rw [decide_eq_decide]
  exact Nat.succ_lt_succ_iff

lemma genPairs_eq_specPairsByIndex : ∀ l : List String,
    genPairs l = specPairsByIndex l := by
  intro l
  induction l with
  | nil => simp [genPairs, specPairsByIndex]
  | cons p t ih =>
      simp only [specPairsByIndex, List.length_cons]
      rw [List.range_succ_eq_map, List.flatMap_cons, List.flatMap_map]
      simp only [Nat.succ_eq_add_one, List.getD_cons_zero, List.getD_cons_succ]
      rw [filter_pos_cons_map t.length, List.flatMap_map]
      simp only [Nat.succ_eq_add_one, List.getD_cons_succ]
      rw [flatMap_range_getD (fun q => [(p, q), (q, p)]) t]
      have hrest : ((List.range t.length).flatMap fun a =>
          (List.filter (fun j => decide (a + 1 < j))
            (0 :: List.map Nat.succ (List.range t.length))).flatMap fun j =>
            [(t.getD a "", (p :: t).getD j ""), ((p :: t).getD j "", t.getD a "")])
          = specPairsByIndex t := by
        unfold specPairsByIndex
        apply flatMap_congr
        intro a _
        rw [filter_succ_lt_cons_map t.length a, List.flatMap_map]
        apply flatMap_congr
        intro j _
        simp only [Nat.succ_eq_add_one, List.getD_cons_succ]
      rw [hrest, ← ih, genPairs]

lemma mkFixtures_map_pairs (tid : Nat) :
    ∀ (prs : List (String × String)) (nid : Nat),
      (mkFixtures tid nid prs).map (fun f => (f.home, f.away)) = prs := by
  intro prs
  induction prs with
  | nil => intro nid; rfl
  | cons pr rest ih =>
      intro nid
      obtain ⟨h, a⟩ := pr
      simp [mkFixtures, ih]

lemma mkFixtures_mem (tid : Nat) :
    ∀ (prs : List (String × String)) (nid : Nat) (f : FixtureRow),
      f ∈ mkFixtures tid nid prs →
        f.tournament_id = tid ∧ f.homeScore = 0 ∧ f.awayScore = 0 ∧
          f.played = 0 ∧ (f.home, f.away) ∈ prs := by
  intro prs
  induction prs with
  | nil => intro nid f hf; simp [mkFixtures] at hf
  | cons pr rest ih =>
      intro nid f hf
      obtain ⟨h, a⟩ := pr
      rcases List.mem_cons.1 hf with h1 | h2
      · subst h1; simp
      · rcases ih (nid + 1) f h2 with ⟨ht, hhs, has, hp, hm⟩
        exact ⟨ht, hhs, has, hp, List.mem_cons_of_mem _ hm⟩

lemma generateFixtures_of_lt (db : DB) (tid : Nat)
    (h : (playersOf db tid).length < 2) : generateFixtures db tid = db := by
  rw [generateFixtures]
  simp only []
  rw [if_pos h]

lemma fixturesOf_generateFixtures (db : DB) (tid : Nat)
    (h2 : 2 ≤ (playersOf db tid).length) :
    fixturesOf (generateFixtures db tid) tid
      = mkFixtures tid db.nextFixtureId (genPairs (playersOf db tid)) := by
  rw [generateFixtures]
  simp only []
  rw [if_neg (by omega)]
  unfold fixturesOf
  simp only []
  rw [List.filter_append]
  have h1 : (db.fixtures.filter (fun f => !(f.tournament_id == tid))).filter
      (fun f => f.tournament_id == tid) = [] := by
    rw [List.filter_filter]
    apply List.filter_eq_nil_iff.2
    intro f _
    cases hb : (f.tournament_id == tid) <;> simp [hb]
  have h3 : (mkFixtures tid db.nextFixtureId
      (genPairs (playersOf db tid))).filter (fun f => f.tournament_id == tid)
      = mkFixtures tid db.nextFixtureId (genPairs (playersOf db tid)) := by
    apply List.filter_eq_self.2
    intro f hf
    have := (mkFixtures_mem tid _ _ f hf).1
    simp [this]
  rw [h1, h3, List.nil_append]

lemma standingsOf_generateFixtures (db : DB) (tid : Nat)
    (h2 : 2 ≤ (playersOf db tid).length) :
    standingsOf (generateFixtures db tid) tid
      = (playersOf db tid).map (zeroStanding tid) := by
  rw [generateFixtures]
  simp only []
  rw [if_neg (by omega)]
  unfold standingsOf
  simp only []
  rw [List.filter_append]
  have h1 : (db.standings.filter (fun r => !(r.tournament_id == tid))).filter
      (fun r => r.tournament_id == tid) = [] := by
    rw [List.filter_filter]
    apply List.filter_eq_nil_iff.2
    intro r _
    cases hb : (r.tournament_id == tid) <;> simp [hb]
  have h3 : ((playersOf db tid).map (zeroStanding tid)).filter
      (fun r => r.tournament_id == tid)
      = (playersOf db tid).map (zeroStanding tid) := by
    apply List.filter_eq_self.2
    intro r hr
    rcases List.mem_map.1 hr with ⟨p, _, rfl⟩
    simp [zeroStanding]
  rw [h1, h3, List.nil_append]

lemma findStanding_some {db : DB} {tid : Nat} {p : String} {r : StandingRow}
    (h : findStanding db tid p = some r) :
    r ∈ db.standings ∧ r.tournament_id = tid ∧ r.player = p := by
  unfold findStanding at h
  have h1 := List.find?_some h
  rw [Bool.and_eq_true, beq_iff_eq, beq_iff_eq] at h1
  exact ⟨List.mem_of_find?_eq_some h, h1.1, h1.2⟩

lemma recordResult_cases (db : DB) (tid k : Nat) (hs aw : Int) :
    ((fixturesOf db tid)[k]? = none ∧ recordResult db tid k hs aw = .crash db) ∨
    (∃ f, (fixturesOf db tid)[k]? = some f ∧
      findStanding db tid f.home = none ∧
      recordResult db tid k hs aw = .crash (setFixtureScore db f.id hs aw)) ∨
    (∃ f home, (fixturesOf db tid)[k]? = some f ∧
      findStanding db tid f.home = some home ∧
      findStanding db tid f.away = none ∧
      recordResult db tid k hs aw =
        .crash (updateStanding (setFixtureScore db f.id hs aw) tid home hs aw)) ∨
    (∃ f home away, (fixturesOf db tid)[k]? = some f ∧
      findStanding db tid f.home = some home ∧
      findStanding db tid f.away = some away ∧
      recordResult db tid k hs aw =
        .redirect (updateStanding (updateStanding (setFixtureScore db f.id hs aw)
          tid home hs aw) tid away aw hs)) := by
  cases hf : (fixturesOf db tid)[k]? with
  | none => exact Or.inl ⟨rfl, by unfold recordResult; rw [hf]⟩
  | some f =>
      have he : recordResult db tid k hs aw =
          match findStanding (setFixtureScore db f.id hs aw) tid f.home,
              findStanding (setFixtureScore db f.id hs aw) tid f.away with
          | some home, some away =>
              .redirect (updateStanding (updateStanding (setFixtureScore db f.id hs aw)
                tid home hs aw) tid away aw hs)
          | some home, none =>
              .crash (updateStanding (setFixtureScore db f.id hs aw) tid home hs aw)
          | none, _ => .crash (setFixtureScore db f.id hs aw) := by
        unfold recordResult
        rw [hf]
      cases hh : findStanding (setFixtureScore db f.id hs aw) tid f.home with
      | none =>
          rw [hh] at he
          exact Or.inr (Or.inl ⟨f, rfl, hh, he⟩)
      | some home =>
          rw [hh] at he
          cases ha : findStanding (setFixtureScore db f.id hs aw) tid f.away with
          | none =>
              rw [ha] at he
              exact Or.inr (Or.inr (Or.inl ⟨f, home, rfl, hh, ha, he⟩))
          | some away =>
              rw [ha] at he
              exact Or.inr (Or.inr (Or.inr ⟨f, home, away, rfl, hh, ha, he⟩))

lemma rowInv_applyResult_self (r : StandingRow) (gf ga : Int) (h : RowInv r) :
    RowInv (applyResult r r gf ga) := by
  obtain ⟨h1, h2, h3⟩ := h
  rcases lt_trichotomy gf ga with hc | hc | hc
  · have e1 : ¬(gf > ga) := by omega
    have e2 : (gf == ga) = false := by rw [beq_eq_false_iff_ne]; omega
    refine ⟨?_, ?_, ?_⟩ <;> simp [applyResult, RowInv, e1, e2, hc] <;> omega
  · have e1 : ¬(gf > ga) := by omega
    have e2 : (gf == ga) = true := by rw [beq_iff_eq]; omega
    have e3 : ¬(gf < ga) := by omega
    refine ⟨?_, ?_, ?_⟩ <;> simp [applyResult, RowInv, e1, e2, e3] <;> omega
  · have e2 : (gf == ga) = false := by rw [beq_eq_false_iff_ne]; omega
    have e3 : ¬(gf < ga) := by omega
    refine ⟨?_, ?_, ?_⟩ <;> simp [applyResult, RowInv, hc, e2, e3] <;> omega

lemma good_setFixtureScore (db : DB) (tid fid : Nat) (hs aw : Int)
    (h : Good db tid) : Good (setFixtureScore db fid hs aw) tid := by
  refine ⟨h.1, h.2.1, ?_⟩
  intro g hg htid
  rcases List.mem_map.1 hg with ⟨f0, hf0, rfl⟩
  by_cases hb : (f0.id == fid) = true
  · rw [if_pos hb] at htid ⊢
    exact h.2.2 f0 hf0 htid
  · rw [if_neg hb] at htid ⊢
    exact h.2.2 f0 hf0 htid

lemma good_updateStanding {db : DB} {tid : Nat} (tid' : Nat) (snap : StandingRow)
    (gf ga : Int)
    (hsnap : tid' = tid → snap ∈ db.standings ∧ snap.tournament_id = tid)
    (h : Good db tid) : Good (updateStanding db tid' snap gf ga) tid := by
  obtain ⟨hinv, huniq, hfix⟩ := h
  refine ⟨?_, ?_, hfix⟩
  · intro r' hr' htid'
    rcases List.mem_map.1 hr' with ⟨r, hr, rfl⟩
    by_cases hc : (r.tournament_id == tid' && r.player == snap.player) = true
    · rw [if_pos hc] at htid' ⊢
      have hts : r.tournament_id = tid := htid'
      rw [Bool.and_eq_true, beq_iff_eq, beq_iff_eq] at hc
      have htt : tid' = tid := by rw [← hc.1]; exact hts
      obtain ⟨hsm, hst⟩ := hsnap htt
      have hreq : r = snap := huniq r hr snap hsm hts hst hc.2
      rw [hreq]
      exact rowInv_applyResult_self snap gf ga (hinv snap hsm hst)
    · rw [if_neg hc] at htid' ⊢
      exact hinv r hr htid'
  · intro r' hr' s' hs' ht1 ht2 hp
    rcases List.mem_map.1 hr' with ⟨r, hr, rfl⟩
    rcases List.mem_map.1 hs' with ⟨s, hs, rfl⟩
    have hkeys : ∀ x : StandingRow,
        ((if (x.tournament_id == tid' && x.player == snap.player) = true then
          applyResult snap x gf ga else x) : StandingRow).tournament_id
            = x.tournament_id ∧
        ((if (x.tournament_id == tid' && x.player == snap.player) = true then
          applyResult snap x gf ga else x) : StandingRow).player = x.player := by
      intro x
      split_ifs with hc
      · exact ⟨rfl, rfl⟩
      · exact ⟨rfl, rfl⟩
    have hrs : r = s := by
      apply huniq r hr s hs
      · rw [← (hkeys r).1]; exact ht1
      · rw [← (hkeys s).1]; exact ht2
      · rw [← (hkeys r).2, ← (hkeys s).2]; exact hp
    rw [hrs]

lemma good_recordResult (db : DB) (tid tid' k : Nat) (hs aw : Int)
    (h : Good db tid) : Good (outcomeDB (recordResult db tid' k hs aw)) tid := by
  rcases recordResult_cases db tid' k hs aw with
    ⟨_, heq⟩ | ⟨f, hf, _, heq⟩ | ⟨f, home, hf, hh, _, heq⟩ |
    ⟨f, home, away, hf, hh, ha, heq⟩
  · rw [heq]; exact h
  · rw [heq]; exact good_setFixtureScore db tid f.id hs aw h
  · rw [heq]
    have h1 := good_setFixtureScore db tid f.id hs aw h
    obtain ⟨hm, ht, hp⟩ := findStanding_some hh
    exact good_updateStanding tid' home hs aw (fun htt => ⟨hm, ht.trans htt⟩) h1
  · rw [heq]
    have h1 := good_setFixtureScore db tid f.id hs aw h
    obtain ⟨hm, ht, hp⟩ := findStanding_some hh
    obtain ⟨ham, hat, hap⟩ := findStanding_some ha
    have h2 : Good (updateStanding (setFixtureScore db f.id hs aw) tid' home hs aw) tid :=
      good_updateStanding tid' home hs aw (fun htt => ⟨hm, ht.trans htt⟩) h1
    refine good_updateStanding tid' away aw hs ?_ h2
    intro htt
    have hfm : f ∈ db.fixtures ∧ f.tournament_id = tid' := by
      have hmem := List.getElem?_mem hf
      have h4 := List.mem_filter.1 hmem
      refine ⟨h4.1, ?_⟩
      have := h4.2
      rwa [beq_iff_eq] at this
    have hne : f.home ≠ f.away := h.2.2 f hfm.1 (hfm.2.trans htt)
    constructor
    · apply List.mem_map.2
      refine ⟨away, ham, ?_⟩
      have hng : ¬((away.tournament_id == tid' && away.player == home.player) = true) := by
        intro hcc
        rw [Bool.and_eq_true, beq_iff_eq, beq_iff_eq] at hcc
        have : f.away = f.home := hap.symm.trans (hcc.2.trans hp)
        exact hne this.symm
      rw [if_neg hng]
    · exact hat.trans htt

lemma good_applyOps (tid : Nat) : ∀ (ops : List ScoreOp) (db : DB),
    Good db tid → Good (applyOps db ops) tid := by
  intro ops
  induction ops with
  | nil => intro db h; exact h
  | cons op rest ih =>
      intro db h
      exact ih _ (good_recordResult db tid op.tid op.idx op.hs op.aw h)

lemma good_generateFixtures (db : DB) (tid : Nat)
    (h2 : 2 ≤ (playersOf db tid).length) (hd : (playersOf db tid).Nodup) :
    Good (generateFixtures db tid) tid := by
  have hst : (generateFixtures db tid).standings
      = db.standings.filter (fun r => !(r.tournament_id == tid))
        ++ (playersOf db tid).map (zeroStanding tid) := by
    rw [generateFixtures]
    simp only []
    rw [if_neg (by omega)]
  have hfx : (generateFixtures db tid).fixtures
      = db.fixtures.filter (fun f => !(f.tournament_id == tid))
        ++ mkFixtures tid db.nextFixtureId (genPairs (playersOf db tid)) := by
    rw [generateFixtures]
    simp only []
    rw [if_neg (by omega)]
  refine ⟨?_, ?_, ?_⟩
  · intro r hr htid
    rw [hst] at hr
    rcases List.mem_append.1 hr with h1 | h1
    · exfalso
      have hb := (List.mem_filter.1 h1).2
      simp [htid] at hb
    · rcases List.mem_map.1 h1 with ⟨p, _, rfl⟩
      exact ⟨rfl, rfl, rfl⟩
  · intro r hr s hs' ht1 ht2 hp
    rw [hst] at hr hs'
    rcases List.mem_append.1 hr with h1 | h1
    · exfalso
      have hb := (List.mem_filter.1 h1).2
      simp [ht1] at hb
    rcases List.mem_append.1 hs' with h2' | h2'
    · exfalso
      have hb := (List.mem_filter.1 h2').2
      simp [ht2] at hb
    rcases List.mem_map.1 h1 with ⟨p, _, rfl⟩
    rcases List.mem_map.1 h2' with ⟨q, _, rfl⟩
    have : p = q := hp
    rw [this]
  · intro f hf htid
    rw [hfx] at hf
    rcases List.mem_append.1 hf with h1 | h1
    · exfalso
      have hb := (List.mem_filter.1 h1).2
      simp [htid] at hb
    · have hm := (mkFixtures_mem tid _ _ f h1).2.2.2.2
      exact genPairs_ne hd f.home f.away hm

lemma redirect_standings_map {db : DB} {tid k : Nat} {hs aw : Int} {db' : DB}
    {f : FixtureRow}
    (hf : (fixturesOf db tid)[k]? = some f)
    (hne : f.home ≠ f.away)
    (huniq : ∀ r ∈ db.standings, ∀ s ∈ db.standings,
      r.tournament_id = tid → s.tournament_id = tid → r.player = s.player → r = s)
    (hsucc : recordResult db tid k hs aw = .redirect db') :
    db'.standings = db.standings.map (fun r =>
      if r.tournament_id = tid ∧ r.player = f.home then rowUpdate r hs aw
      else if r.tournament_id = tid ∧ r.player = f.away then rowUpdate r aw hs
      else r) := by
  rcases recordResult_cases db tid k hs aw with
    ⟨_, heq⟩ | ⟨f0, hf0, _, heq⟩ | ⟨f0, home, hf0, hh, _, heq⟩ |
    ⟨f0, home, away, hf0, hh, ha, heq⟩
  · rw [heq] at hsucc; exact absurd hsucc (by simp)
  · rw [heq] at hsucc; exact absurd hsucc (by simp)
  · rw [heq] at hsucc; exact absurd hsucc (by simp)
  · have hff : f0 = f := Option.some.inj (hf0.symm.trans hf)
    rw [hff] at heq hh ha
    rw [heq] at hsucc
    have hdb' := ScoreOutcome.redirect.inj hsucc
    obtain ⟨hm, ht, hp⟩ := findStanding_some hh
    obtain ⟨ham, hat, hap⟩ := findStanding_some ha
    subst hdb'
    show ((db.standings.map (fun r =>
        if (r.tournament_id == tid && r.player == home.player) = true then
          applyResult home r hs aw else r)).map (fun r =>
            if (r.tournament_id == tid && r.player == away.player) = true then
              applyResult away r aw hs else r)) = _
    rw [List.map_map]
    apply List.map_congr_left
    intro r hr
    simp only [Function.comp_apply]
    by_cases h1 : r.tournament_id = tid
    · by_cases h2 : r.player = f.home
      · have hg1 : (r.tournament_id == tid && r.player == home.player) = true := by
          rw [Bool.and_eq_true, beq_iff_eq, beq_iff_eq]
          exact ⟨h1, h2.trans hp.symm⟩
        rw [if_pos hg1]
        have hreq : r = home := huniq r hr home hm h1 ht (h2.trans hp.symm)
        have hg2 : ¬((applyResult home r hs aw).tournament_id == tid
            && (applyResult home r hs aw).player == away.player) = true := by
          rw [Bool.and_eq_true, beq_iff_eq, beq_iff_eq]
          intro hcc
          have : r.player = away.player := hcc.2
          exact hne (h2.symm.trans (this.trans hap))
        rw [if_neg hg2, if_pos ⟨h1, h2⟩]
        rw [hreq]
        rfl
      · by_cases h3 : r.player = f.away
        · have hg1 : ¬(r.tournament_id == tid && r.player == home.player) = true := by
            rw [Bool.and_eq_true, beq_iff_eq, beq_iff_eq]
            intro hcc
            exact h2 (hcc.2.trans hp)
          rw [if_neg hg1]
          have hg2 : (r.tournament_id == tid && r.player == away.player) = true := by
            rw [Bool.and_eq_true, beq_iff_eq, beq_iff_eq]
            exact ⟨h1, h3.trans hap.symm⟩
          rw [if_pos hg2]
          have hreq : r = away := huniq r hr away ham h1 hat (h3.trans hap.symm)
          rw [if_neg (fun hcc => h2 hcc.2), if_pos ⟨h1, h3⟩]
          rw [hreq]
          rfl
        · have hg1 : ¬(r.tournament_id == tid && r.player == home.player) = true := by
            rw [Bool.and_eq_true, beq_iff_eq, beq_iff_eq]
            intro hcc
            exact h2 (hcc.2.trans hp)
          rw [if_neg hg1]
          have hg2 : ¬(r.tournament_id == tid && r.player == away.player) = true := by
            rw [Bool.and_eq_true, beq_iff_eq, beq_iff_eq]
            intro hcc
            exact h3 (hcc.2.trans hap)
          rw [if_neg hg2, if_neg (fun hcc => h2 hcc.2), if_neg (fun hcc => h3 hcc.2)]
    · have hg1 : ¬(r.tournament_id == tid && r.player == home.player) = true := by
        rw [Bool.and_eq_true]
        intro hcc
        exact h1 (beq_iff_eq.1 hcc.1)
      rw [if_neg hg1]
      have hg2 : ¬(r.tournament_id == tid && r.player == away.player) = true := by
        rw [Bool.and_eq_true]
        intro hcc
        exact h1 (beq_iff_eq.1 hcc.1)
      rw [if_neg hg2, if_neg (fun hcc => h1 hcc.1), if_neg (fun hcc => h1 hcc.1)]

lemma mkFixtures_length (tid : Nat) :
    ∀ (prs : List (String × String)) (nid : Nat),
      (mkFixtures tid nid prs).length = prs.length := by
  intro prs
  induction prs with
  | nil => intro nid; rfl
  | cons pr rest ih =>
      intro nid
      obtain ⟨h, a⟩ := pr
      simp [mkFixtures, ih]

/-- C1: for every ordered list of at least two distinct participants,
fixture generation emits exactly n*(n-1) fixtures, in which each unordered
pair of distinct participants appears exactly once in each orientation, in
the positional order of the claim (for i before j: first (i, j), then
(j, i)); on [A, B, C] the emitted order is (A,B)(B,A)(A,C)(C,A)(B,C)(C,B). -/
theorem generate_double_round_robin (db : DB) (tid : Nat)
    (h2 : 2 ≤ (playersOf db tid).length) (hd : (playersOf db tid).Nodup) :
    ((fixturesOf (generateFixtures db tid) tid).map (fun f => (f.home, f.away))
        = genPairs (playersOf db tid)) ∧
    (fixturesOf (generateFixtures db tid) tid).length
        = (playersOf db tid).length * ((playersOf db tid).length - 1) ∧
    (∀ a b : String, a ∈ playersOf db tid → b ∈ playersOf db tid → a ≠ b →
      (genPairs (playersOf db tid)).count (a, b) = 1 ∧
      (genPairs (playersOf db tid)).count (b, a) = 1) ∧
    genPairs (playersOf db tid) = specPairsByIndex (playersOf db tid) ∧
    genPairs ["A", "B", "C"]
        = [("A", "B"), ("B", "A"), ("A", "C"), ("C", "A"), ("B", "C"), ("C", "B")] := by
  refine ⟨?_, ?_, ?_, genPairs_eq_specPairsByIndex _, by decide⟩
  · rw [fixturesOf_generateFixtures db tid h2, mkFixtures_map_pairs]
  · rw [fixturesOf_generateFixtures db tid h2, mkFixtures_length,
      genPairs_length]
  · intro a b ha hb hab
    exact ⟨genPairs_count hd ha hb hab, genPairs_count hd hb ha hab.symm⟩

/-- C1 witness: the theorem applied to the three-member store. -/
theorem generate_double_round_robin_witness :
    (fixturesOf (generateFixtures dbABC 1) 1).length
      = (playersOf dbABC 1).length * ((playersOf dbABC 1).length - 1) :=
  (generate_double_round_robin dbABC 1 (by decide) (by decide)).2.1

/-- C2 counterexample: from freshly generated zeroed standings (obtainable
because join is not idempotent, so one user can occupy both slots of the
participant list), a single recordResult leaves a standing row with
gd = -2 but gf - ga = 0: the invariant gd = gf - ga fails as stated. -/
theorem standings_invariant_counterexample :
    standingsOf (generateFixtures dbDup 1) 1
        = [zeroStanding 1 "A", zeroStanding 1 "A"] ∧
    (applyOps (generateFixtures dbDup 1) [⟨1, 0, 3, 1⟩]).standings
        = [⟨1, "A", 1, 0, 0, 1, 4, 4, -2, 0⟩, ⟨1, "A", 1, 0, 0, 1, 4, 4, -2, 0⟩] ∧
    ¬ RowInv ⟨1, "A", 1, 0, 0, 1, 4, 4, -2, 0⟩ :=
  ⟨by decide, by decide, fun h => absurd h.2.1 (by decide)⟩

/-- C2 (amended): after any sequence of recordResult operations starting
from freshly generated zeroed standings of a duplicate-free participant
list, every standing row of the tournament satisfies played = won + drawn
+ lost, gd = gf - ga and points = won * 3 + drawn. -/
theorem standings_invariants_of_nodup (db : DB) (tid : Nat) (ops : List ScoreOp)
    (h2 : 2 ≤ (playersOf db tid).length) (hd : (playersOf db tid).Nodup) :
    ∀ r ∈ (applyOps (generateFixtures db tid) ops).standings,
      r.tournament_id = tid → RowInv r :=
  (good_applyOps tid ops (generateFixtures db tid)
    (good_generateFixtures db tid h2 hd)).1

/-- C2 witness: the amended theorem applied to the three-member store after
one 2-2 result. -/
theorem standings_invariants_of_nodup_witness :
    RowInv ⟨1, "A", 1, 0, 1, 0, 2, 2, 0, 1⟩ :=
  standings_invariants_of_nodup dbABC 1 [⟨1, 0, 2, 2⟩] (by decide) (by decide)
    ⟨1, "A", 1, 0, 1, 0, 2, 2, 0, 1⟩ (by decide) (by decide)

/-- C3: a successful score update rewrites exactly the two matched rows,
each once with that side's (goalsFor, goalsAgainst) via the per-side rule
(played + 1, one of won/drawn/lost + 1 by comparison, goals accumulated,
gd and points recomputed from the new totals); recording (A,B) as 3-1 from
zeroed rows gives A: 1/1/0/0, 3:1, gd 2, 3 points and B: 1/0/0/1, 1:3,
gd -2, 0 points. -/
theorem recordResult_per_side (db : DB) (tid k : Nat) (hs aw : Int) (db' : DB)
    (f : FixtureRow)
    (hf : (fixturesOf db tid)[k]? = some f)
    (hne : f.home ≠ f.away)
    (huniq : ∀ r ∈ db.standings, ∀ s ∈ db.standings,
      r.tournament_id = tid → s.tournament_id = tid → r.player = s.player → r = s)
    (hsucc : recordResult db tid k hs aw = .redirect db') :
    (db'.standings = db.standings.map (fun r =>
      if r.tournament_id = tid ∧ r.player = f.home then rowUpdate r hs aw
      else if r.tournament_id = tid ∧ r.player = f.away then rowUpdate r aw hs
      else r)) ∧
    (∀ (r : StandingRow) (gf ga : Int),
      (rowUpdate r gf ga).played = r.played + 1 ∧
      (rowUpdate r gf ga).won = r.won + (if gf > ga then 1 else 0) ∧
      (rowUpdate r gf ga).drawn = r.drawn + (if gf = ga then 1 else 0) ∧
      (rowUpdate r gf ga).lost = r.lost + (if gf < ga then 1 else 0) ∧
      (rowUpdate r gf ga).gf = r.gf + gf ∧
      (rowUpdate r gf ga).ga = r.ga + ga ∧
      (rowUpdate r gf ga).gd = (rowUpdate r gf ga).gf - (rowUpdate r gf ga).ga ∧
      (rowUpdate r gf ga).points
        = (rowUpdate r gf ga).won * 3 + (rowUpdate r gf ga).drawn) ∧
    standingsOf (outcomeDB (recordResult (generateFixtures dbABC 1) 1 0 3 1)) 1
      = [⟨1, "A", 1, 1, 0, 0, 3, 1, 2, 3⟩, ⟨1, "B", 1, 0, 0, 1, 1, 3, -2, 0⟩,
         zeroStanding 1 "C"] := by
  refine ⟨redirect_standings_map hf hne huniq hsucc, ?_, by decide⟩
  intro r gf ga
  refine ⟨rfl, rfl, ?_, rfl, rfl, rfl, rfl, rfl⟩
  by_cases hc : gf = ga
  · rw [if_pos hc]
    show r.drawn + (if (gf == ga) = true then 1 else 0) = r.drawn + 1
    rw [if_pos (beq_iff_eq.2 hc)]
  · rw [if_neg hc]
    show r.drawn + (if (gf == ga) = true then 1 else 0) = r.drawn + 0
    rw [if_neg (fun hb => hc (beq_iff_eq.1 hb))]

/-- C3 witness: the theorem applied to the generated three-member store
with fixture 0 recorded 3-1. -/
theorem recordResult_per_side_witness :
    standingsOf (outcomeDB (recordResult (generateFixtures dbABC 1) 1 0 3 1)) 1
      = [⟨1, "A", 1, 1, 0, 0, 3, 1, 2, 3⟩, ⟨1, "B", 1, 0, 0, 1, 1, 3, -2, 0⟩,
         zeroStanding 1 "C"] :=
  (recordResult_per_side (generateFixtures dbABC 1) 1 0 3 1
    (outcomeDB (recordResult (generateFixtures dbABC 1) 1 0 3 1))
    ⟨0, 1, "A", "B", 0, 0, 0⟩ (by decide) (by decide) (by decide) (by decide)).2.2

/-- C4: on a fixtureIndex that addresses no fixture the score route does
not take a NotFound branch (none exists in the code): it dereferences
`undefined` and crashes, leaving every table unchanged. -/
theorem score_missing_fixture_crashes :
    fixturesOf dbABC 1 = [] ∧
    recordResult dbABC 1 0 3 1 = .crash dbABC := ⟨by decide, by decide⟩

/-- C5: joining the same tournament twice with the same user is not a
no-op: the second join appends a duplicate membership row, raising the
membership count from 1 to 2, because `tournament_players` has no unique
constraint for `INSERT OR IGNORE` to act on. -/
theorem join_twice_duplicates :
    membershipCount (joinTournament dbABC 2 1) 2 1 = 1 ∧
    membershipCount (joinTournament (joinTournament dbABC 2 1) 2 1) 2 1 = 2 ∧
    (joinTournament (joinTournament dbABC 2 1) 2 1).tournament_players
      = dbABC.tournament_players ++ [⟨2, 1⟩, ⟨2, 1⟩] :=
  ⟨by decide, by decide, by decide⟩

/-- C6: with fewer than two participants, fixture generation returns the
store untouched: no fixtures, no standing rows, nothing deleted. -/
theorem generate_without_two_players_noop (db : DB) (tid : Nat)
    (h : (playersOf db tid).length < 2) : generateFixtures db tid = db :=
  generateFixtures_of_lt db tid h

/-- C6 witness: the theorem applied to the one-member store. -/
theorem generate_without_two_players_noop_witness :
    generateFixtures dbSolo 1 = dbSolo :=
  generate_without_two_players_noop dbSolo 1 (by decide)

/-- C7: regeneration replaces the tournament's fixtures and standings
wholesale: afterwards its standings are exactly one zeroed row per
participant-list entry (exactly one per participant when the list is
duplicate-free) and its fixtures are exactly the fresh unplayed rows. -/
theorem generate_resets_fixtures_and_standings (db : DB) (tid : Nat)
    (h2 : 2 ≤ (playersOf db tid).length) :
    standingsOf (generateFixtures db tid) tid
        = (playersOf db tid).map (zeroStanding tid) ∧
    fixturesOf (generateFixtures db tid) tid
        = mkFixtures tid db.nextFixtureId (genPairs (playersOf db tid)) ∧
    (∀ r ∈ standingsOf (generateFixtures db tid) tid,
      r.played = 0 ∧ r.won = 0 ∧ r.drawn = 0 ∧ r.lost = 0 ∧ r.gf = 0 ∧
        r.ga = 0 ∧ r.gd = 0 ∧ r.points = 0) ∧
    (∀ g ∈ fixturesOf (generateFixtures db tid) tid,
      g.homeScore = 0 ∧ g.awayScore = 0 ∧ g.played = 0) ∧
    ((playersOf db tid).Nodup → ∀ p ∈ playersOf db tid,
      ((standingsOf (generateFixtures db tid) tid).filter
        (fun r => r.player == p)).length = 1) := by
  have hstd := standingsOf_generateFixtures db tid h2
  have hfix := fixturesOf_generateFixtures db tid h2
  refine ⟨hstd, hfix, ?_, ?_, ?_⟩
  · intro r hr
    rw [hstd] at hr
    rcases List.mem_map.1 hr with ⟨p, _, rfl⟩
    exact ⟨rfl, rfl, rfl, rfl, rfl, rfl, rfl, rfl⟩
  · intro g hg
    rw [hfix] at hg
    have := mkFixtures_mem tid _ _ g hg
    exact ⟨this.2.1, this.2.2.1, this.2.2.2.1⟩
  · intro hd p hp
    rw [hstd, List.filter_map]
    rw [List.length_map]
    have hcg : (playersOf db tid).filter
        ((fun r : StandingRow => r.player == p) ∘ zeroStanding tid)
        = (playersOf db tid).filter (fun q => q == p) :=
      List.filter_congr (fun q _ => rfl)
    rw [hcg, ← List.countP_eq_length_filter]
    have : (playersOf db tid).count p = 1 := count_one hd hp
    rw [← this]
    rfl

/-- C7 witness: the theorem applied to the three-member store. -/
theorem generate_resets_fixtures_and_standings_witness :
    standingsOf (generateFixtures dbABC 1) 1
      = (playersOf dbABC 1).map (zeroStanding 1) :=
  (generate_resets_fixtures_and_standings dbABC 1 (by decide)).1

/-- C8: the standings listing is a permutation of the tournament's rows,
pairwise ordered by points descending with ties broken by goal difference
descending. -/
theorem standings_sorted (db : DB) (tid : Nat) :
    (getStandings db tid).Perm (standingsOf db tid) ∧
    (getStandings db tid).Pairwise (fun a b =>
      b.points < a.points ∨ (a.points = b.points ∧ b.gd ≤ a.gd)) := by
  constructor
  · exact List.mergeSort_perm (standingsOf db tid) standingsLe
  · have htrans : ∀ a b c : StandingRow, standingsLe a b = true →
        standingsLe b c = true → standingsLe a c = true := by
      intro a b c hab hbc
      simp only [standingsLe, Bool.or_eq_true, Bool.and_eq_true,
        decide_eq_true_eq, beq_iff_eq] at hab hbc ⊢
      omega
    have htotal : ∀ a b : StandingRow,
        (standingsLe a b || standingsLe b a) = true := by
      intro a b
      simp only [standingsLe, Bool.or_eq_true, Bool.and_eq_true,
        decide_eq_true_eq, beq_iff_eq]
      omega
    have hs := List.sorted_mergeSort htrans htotal (standingsOf db tid)
    apply List.Pairwise.imp ?_ hs
    intro a b hab
    simp only [standingsLe, Bool.or_eq_true, Bool.and_eq_true,
      decide_eq_true_eq, beq_iff_eq] at hab
    exact hab

/-- C9: registering an already-taken username leaves the store exactly as
it was (the existing account untouched, no row added) and reports the
conflict. -/
theorem register_existing_username_conflict (db : DB) (u e hsh : String)
    (hex : ∃ w ∈ db.users, w.username = u) :
    register db u e hsh = .conflict db := by
  rcases hex with ⟨w, hw, he⟩
  have hany : db.users.any (fun v => v.username == u) = true :=
    List.any_eq_true.2 ⟨w, hw, by rw [beq_iff_eq]; exact he⟩
  unfold register
  rw [if_pos hany]

/-- C9 witness: the theorem applied to the three-member store and the
taken username A. -/
theorem register_existing_username_conflict_witness :
    register dbABC "A" "x" "y" = .conflict dbABC :=
  register_existing_username_conflict dbABC "A" "x" "y"
    ⟨⟨1, "A", "a", "h"⟩, by decide, rfl⟩

/-- C10: a successful score update leaves users, tournaments and
memberships untouched, changes no fixture other than the addressed one and
no standing row other than the two rows of the fixture's home and away
players in that tournament. -/
theorem recordResult_frame (db : DB) (tid k : Nat) (hs aw : Int) (db' : DB)
    (hsucc : recordResult db tid k hs aw = .redirect db') :
    db'.users = db.users ∧ db'.tournaments = db.tournaments ∧
    db'.tournament_players = db.tournament_players ∧
    ∃ f, (fixturesOf db tid)[k]? = some f ∧
      db'.fixtures.length = db.fixtures.length ∧
      db'.standings.length = db.standings.length ∧
      (∀ (i : Nat) (x : FixtureRow), db.fixtures[i]? = some x → x.id ≠ f.id →
        db'.fixtures[i]? = some x) ∧
      (∀ (i : Nat) (r : StandingRow), db.standings[i]? = some r →
        r.tournament_id ≠ tid ∨ (r.player ≠ f.home ∧ r.player ≠ f.away) →
        db'.standings[i]? = some r) := by
  rcases recordResult_cases db tid k hs aw with
    ⟨_, heq⟩ | ⟨f0, hf0, _, heq⟩ | ⟨f0, home, hf0, hh, _, heq⟩ |
    ⟨f0, home, away, hf0, hh, ha, heq⟩
  · rw [heq] at hsucc; exact absurd hsucc (by simp)
  · rw [heq] at hsucc; exact absurd hsucc (by simp)
  · rw [heq] at hsucc; exact absurd hsucc (by simp)
  · rw [heq] at hsucc
    obtain ⟨hm, ht, hp⟩ := findStanding_some hh
    obtain ⟨ham, hat, hap⟩ := findStanding_some ha
    have hdb' := ScoreOutcome.redirect.inj hsucc
    subst hdb'
    refine ⟨rfl, rfl, rfl, f0, hf0, ?_, ?_, ?_, ?_⟩
    · show (db.fixtures.map _).length = db.fixtures.length
      rw [List.length_map]
    · show ((db.standings.map _).map _).length = db.standings.length
      rw [List.length_map, List.length_map]
    · intro i x hx hne'
      show (db.fixtures.map (fun g => if (g.id == f0.id) = true then
          { g with homeScore := hs, awayScore := aw, played := 1 } else g))[i]?
        = some x
      rw [List.getElem?_map, hx, Option.map_some']
      have hng : ¬(x.id == f0.id) = true := by
        rw [beq_iff_eq]; exact hne'
      rw [if_neg hng]
    · intro i r hx hcond
      show ((db.standings.map (fun r0 =>
          if (r0.tournament_id == tid && r0.player == home.player) = true then
            applyResult home r0 hs aw else r0)).map (fun r0 =>
          if (r0.tournament_id == tid && r0.player == away.player) = true then
            applyResult away r0 aw hs else r0))[i]? = some r
      rw [List.map_map, List.getElem?_map, hx, Option.map_some']
      simp only [Function.comp_apply]
      have hg1 : ¬(r.tournament_id == tid && r.player == home.player) = true := by
        rw [Bool.and_eq_true, beq_iff_eq, beq_iff_eq]
        rintro ⟨hc1, hc2⟩
        rcases hcond with hcond | hcond
        · exact hcond hc1
        · exact hcond.1 (hc2.trans hp)
      have hg2 : ¬(r.tournament_id == tid && r.player == away.player) = true := by
        rw [Bool.and_eq_true, beq_iff_eq, beq_iff_eq]
        rintro ⟨hc1, hc2⟩
        rcases hcond with hcond | hcond
        · exact hcond hc1
        · exact hcond.2 (hc2.trans hap)
      rw [if_neg hg1, if_neg hg2]

/-- C10 witness: the theorem applied to the generated three-member store
with fixture 0 recorded 3-1. -/
theorem recordResult_frame_witness :
    (outcomeDB (recordResult (generateFixtures dbABC 1) 1 0 3 1)).users
      = (generateFixtures dbABC 1).users :=
  (recordResult_frame (generateFixtures dbABC 1) 1 0 3 1
    (outcomeDB (recordResult (generateFixtures dbABC 1) 1 0 3 1)) (by decide)).1

end EFootball
